import Mathlib

/-!
Shallow embedding of the Conductor agent worker (agent-starter.py and
autonomous-agent.py) and proofs checking the specification claims.

The AI backend, the coordinator HTTP API and subprocess execution are
opaque collaborators in the source; they are modelled here as oracle
parameters (functions / values supplied from outside), so every theorem
quantifies over all possible behaviours of those collaborators.
-/

set_option maxHeartbeats 1000000

namespace Conductor

/-! ## Python string primitives over `List Char`

Python `str` operations used by the agent are modelled over the
character list of a Lean `String`, with structural recursion so that
all proofs can evaluate them. -/

/-- The backtick character (used in markdown fences). -/
def backtick : Char := Char.ofNat 96

/-- The three-backtick markdown fence marker. -/
def fenceChars : List Char := [backtick, backtick, backtick]

/-- Whitespace characters stripped by Python `str.strip()`. -/
def isSpaceChar (c : Char) : Bool :=
  c = ' ' || c = '\t' || c = '\n' || c = '\r'

/-- Python `s.strip()` on a character list. -/
def trimChars (l : List Char) : List Char :=
  ((l.dropWhile isSpaceChar).reverse.dropWhile isSpaceChar).reverse

/-- Python `s.startswith(p)`: `startsWithL p l` is true when `p` is a
leading segment of `l`. -/
def startsWithL : List Char → List Char → Bool
  | [], _ => true
  | _ :: _, [] => false
  | a :: as, b :: bs => a = b && startsWithL as bs

/-- Python `"```" in s`: the fence marker occurs somewhere in `l`. -/
def containsTriple : List Char → Bool
  | [] => false
  | c :: rest => startsWithL fenceChars (c :: rest) || containsTriple rest

/-- Python `s.split("\n")`. Always returns at least one (possibly empty)
line; a trailing newline yields a trailing empty line. -/
def splitLinesChars : List Char → List (List Char)
  | [] => [[]]
  | c :: cs =>
    if c = '\n' then [] :: splitLinesChars cs
    else
      match splitLinesChars cs with
      | [] => [[c]]
      | l :: ls => (c :: l) :: ls

/-- Python `"\n".join(lines)`. -/
def joinLines : List (List Char) → List Char
  | [] => []
  | [l] => l
  | l :: l2 :: ls => l ++ '\n' :: joinLines (l2 :: ls)

/-- Python `s.strip()` on a `String`. -/
def pyStrip (s : String) : String := String.mk (trimChars s.data)

/-- Python slicing `s[:n]` on a `String` (first `n` characters). -/
def pySliceTo (n : Nat) (s : String) : String := String.mk (s.data.take n)

/-- Python `len(s)` (number of characters). -/
def pyLen (s : String) : Nat := s.data.length

/-! ## Markdown fence cleanup heuristics

`autonomous-agent.py` contains two distinct line-filtering heuristics:
one in `_create_file` (lines 256-266) and one in `_modify_file`
(lines 327-337). -/

/-- Prefix "#" tested by `_create_file`'s heuristic. -/
def hashPref : List Char := ['#']

/-- Prefix "Here" tested by `_create_file`'s heuristic. -/
def herePref : List Char := ['H', 'e', 'r', 'e']

/-- Prefix "This" tested by `_create_file`'s heuristic. -/
def thisPref : List Char := ['T', 'h', 'i', 's']

/-- Line filter of `_create_file` (autonomous-agent.py lines 257-265):
lines that are fence markers toggle `in_code` and are dropped; other
lines are kept when inside a fence, or outside a fence when they do not
start with "```", "#", "Here" or "This". -/
def cleanCreateLines : Bool → List (List Char) → List (List Char)
  | _, [] => []
  | inCode, l :: rest =>
    if startsWithL fenceChars (trimChars l) then cleanCreateLines (!inCode) rest
    else if inCode
        || !(startsWithL fenceChars l || startsWithL hashPref l
              || startsWithL herePref l || startsWithL thisPref l) then
      l :: cleanCreateLines inCode rest
    else cleanCreateLines inCode rest

/-- Markdown cleanup of `_create_file` (autonomous-agent.py lines
256-266): applied only when the fence marker occurs in the content. -/
def cleanCreate (s : String) : String :=
  if containsTriple s.data then
    String.mk (trimChars (joinLines (cleanCreateLines false (splitLinesChars s.data))))
  else s

/-- Line filter of `_modify_file` (autonomous-agent.py lines 328-336):
fence-marker lines toggle `in_code` and are dropped; other lines are
kept only while inside a fence. -/
def cleanModifyLines : Bool → List (List Char) → List (List Char)
  | _, [] => []
  | inCode, l :: rest =>
    if startsWithL fenceChars (trimChars l) then cleanModifyLines (!inCode) rest
    else if inCode then l :: cleanModifyLines inCode rest
    else cleanModifyLines inCode rest

/-- Markdown cleanup of `_modify_file` (autonomous-agent.py lines
327-337): applied only when the fence marker occurs in the content. -/
def cleanModify (s : String) : String :=
  if containsTriple s.data then
    String.mk (trimChars (joinLines (cleanModifyLines false (splitLinesChars s.data))))
  else s

/-! ## Data model -/

/-- A file visible to the agent: readable with its content, or present
but unreadable (an `open` on it raises). -/
inductive FileData where
  | readable (content : String)
  | unreadable
deriving DecidableEq

/-- The workspace directory tree: a partial map from workspace-relative
paths to files. `none` means the path does not exist. -/
def Workspace := String → Option FileData

/-- Overwrite (or create) the file at path `p`. Models Python
`open(path, "w").write(...)` with `mkdir(parents=True)`. -/
def setFile (ws : Workspace) (p : String) (d : FileData) : Workspace :=
  fun q => if q = p then some d else ws q

/-- One plan step, as produced by `_create_execution_plan`. -/
structure Step where
  action : String
  target : String
  description : String
  dependencies : List String
deriving DecidableEq

/-- An execution plan (autonomous-agent.py lines 129-141). -/
structure Plan where
  overview : String
  steps : List Step
  estimatedComplexity : String
deriving DecidableEq

/-- A task received from the coordinator. -/
structure Task where
  id : String
  title : String
  description : String
  type : String
deriving DecidableEq

/-- Codebase context gathered by `_gather_codebase_context`. -/
structure Context where
  files : String → Option String
  technologies : List String

/-- The result dictionary of one executed step. Optional fields model
keys that are present only for some actions. -/
structure StepResult where
  action : String
  status : String
  file : Option String := none
  size : Option Nat := none
  originalSize : Option Nat := none
  newSize : Option Nat := none
  command : Option String := none
  exitCode : Option Int := none
  stdout : Option String := none
  stderr : Option String := none
  errMsg : Option String := none
deriving DecidableEq

/-- Outcome of one `subprocess.run(...)` invocation that is allowed to
complete with any exit code: either the process ran to completion, or
launching it failed (shell unavailable, timeout expiry, ...) which in
Python raises an exception. -/
inductive LaunchResult where
  | completed (exitCode : Int) (stdout stderr : String)
  | failedLaunch (msg : String)
deriving DecidableEq

/-- Outcome of one `subprocess.run(..., check=True)` invocation: `err`
covers both a non-zero exit (CalledProcessError) and a launch failure,
carrying `str(e)`. -/
inductive CmdOutcome where
  | ok (stdout : String)
  | err (msg : String)
deriving DecidableEq

/-- Validation outcome of `_validate_changes`. -/
structure Validation where
  success : Bool
  issues : List String
deriving DecidableEq

/-- The output dictionary returned by `execute_task`
(autonomous-agent.py lines 90-99). -/
structure TaskOutcome where
  success : Bool
  taskType : String
  plan : Plan
  stepsCompleted : Nat
  filesModified : List String
  validation : Validation
  commit : Option String
  executionSummary : String

/-- Opaque collaborators of `AutonomousCodingAgent`, modelled as
oracles: the plan backend (`_create_execution_plan`, which either
yields a parsed plan or raises), the `package.json` JSON parse
(returning the dependency keys, or `none` when `json.load` fails), the
two content-generation backend calls, and the subprocess invocations
used by `_run_command` and `_validate_changes`. -/
structure Oracles where
  planResult : Except String Plan
  parsePkg : String → Option (List String)
  genCreate : String → String → Context → String
  genModify : String → String → String → Context → String
  runShell : String → LaunchResult
  gitStatus : LaunchResult
  typeCheck : LaunchResult

/-- The three git subprocess calls of `_commit_changes`
(autonomous-agent.py lines 438-462): stage, commit, rev-parse. -/
structure GitOracle where
  add : CmdOutcome
  commit : CmdOutcome
  revParse : CmdOutcome

/-! ## PlanEngine context gathering -/

/-- The per-step file snapshot loop of `_gather_codebase_context`
(autonomous-agent.py lines 180-189): for each step with a non-empty
target that exists and is readable, record its content; everything else
is silently skipped. -/
def gatherFiles (ws : Workspace) : List Step → (String → Option String) → (String → Option String)
  | [], acc => acc
  | st :: rest, acc =>
    gatherFiles ws rest
      (if st.target = "" then acc
       else
         match ws st.target with
         | some (.readable c) => fun q => if q = st.target then some c else acc q
         | _ => acc)

/-- `_gather_codebase_context` (autonomous-agent.py lines 159-191):
best-effort snapshot; a missing or unreadable `package.json`, or one
whose JSON parse fails, leaves the technology list empty. -/
def gather_codebase_context (o : Oracles) (ws : Workspace) (plan : Plan) : Context :=
  { files := gatherFiles ws plan.steps (fun _ => none)
    technologies :=
      match ws "package.json" with
      | some (.readable c) =>
        match o.parsePkg c with
        | some deps => deps
        | none => []
      | _ => [] }

/-! ## Step execution -/

/-- `_create_file` (autonomous-agent.py lines 215-282): asks the
backend for content, strips markdown fences, writes the file
(overwriting whatever was there) and reports success with the size. -/
def create_file (o : Oracles) (ctx : Context) (ws : Workspace) (target desc : String) :
    StepResult × Workspace :=
  let contents := cleanCreate (o.genCreate target desc ctx)
  ({ action := "create_file", file := some target, size := some (pyLen contents),
     status := "success" },
   setFile ws target (.readable contents))

/-- `_modify_file` (autonomous-agent.py lines 284-351): a missing
target yields the `file_not_found` status with the workspace untouched;
an unreadable target makes the `open` raise (propagated as `.error`);
otherwise the backend replacement is fence-cleaned and overwrites the
file. -/
def modify_file (o : Oracles) (ctx : Context) (ws : Workspace) (target desc : String) :
    Except String (StepResult × Workspace) :=
  match ws target with
  | none => .ok ({ action := "modify_file", status := "file_not_found" }, ws)
  | some .unreadable => .error ("could not read " ++ target)
  | some (.readable orig) =>
    let newContent := cleanModify (o.genModify target desc orig ctx)
    .ok ({ action := "modify_file", file := some target,
           originalSize := some (pyLen orig), newSize := some (pyLen newContent),
           status := "success" },
         setFile ws target (.readable newContent))

/-- `_run_command` (autonomous-agent.py lines 353-392): a completed
process reports its exit code with stdout/stderr truncated to 500
characters and status success/failed by exit code; any exception around
the launch (including timeout expiry) is caught and reported as status
error. The function never raises. -/
def run_command (o : Oracles) (cmd : String) : StepResult :=
  match o.runShell cmd with
  | .completed rc out errOut =>
    { action := "run_command", command := some cmd, exitCode := some rc,
      stdout := some (pySliceTo 500 out), stderr := some (pySliceTo 500 errOut),
      status := if rc = 0 then "success" else "failed" }
  | .failedLaunch m =>
    { action := "run_command", command := some cmd, errMsg := some m, status := "error" }

/-- `_execute_step` (autonomous-agent.py lines 193-213): dispatch on
the action name; unknown actions are skipped. -/
def execute_step (o : Oracles) (ctx : Context) (ws : Workspace) (st : Step) :
    Except String (StepResult × Workspace) :=
  if st.action = "create_file" then .ok (create_file o ctx ws st.target st.description)
  else if st.action = "modify_file" then modify_file o ctx ws st.target st.description
  else if st.action = "run_command" then .ok (run_command o st.target, ws)
  else .ok ({ action := st.action, status := "skipped" }, ws)

/-- The step loop of `execute_task` (autonomous-agent.py lines 71-75):
steps run strictly in plan order, threading the workspace; an exception
in a step aborts the task. -/
def run_steps (o : Oracles) (ctx : Context) :
    Workspace → List Step → Except String (List StepResult × Workspace)
  | ws, [] => .ok ([], ws)
  | ws, st :: rest =>
    match execute_step o ctx ws st with
    | .error e => .error e
    | .ok (r, ws2) =>
      match run_steps o ctx ws2 rest with
      | .error e => .error e
      | .ok (rs, ws3) => .ok (r :: rs, ws3)

/-! ## Validation and commit -/

/-- `_validate_changes` (autonomous-agent.py lines 394-432): a clean
`git status --porcelain` output adds "No changes detected", a failing
git launch adds "Git check failed"; when `tsconfig.json` exists, a
non-zero `npm run type-check` adds a truncated type-error message while
a launch failure (or timeout) there is swallowed. -/
def validate_changes (o : Oracles) (ws : Workspace) : Validation :=
  let gitIssues : List String :=
    match o.gitStatus with
    | .completed _ out _ => if (trimChars out.data).isEmpty then ["No changes detected"] else []
    | .failedLaunch _ => ["Git check failed"]
  let tsIssues : List String :=
    if (ws "tsconfig.json").isSome then
      match o.typeCheck with
      | .completed rc _ errOut =>
        if rc = 0 then [] else ["Type errors: " ++ pySliceTo 200 errOut]
      | .failedLaunch _ => []
    else []
  let issues := gitIssues ++ tsIssues
  { success := issues.isEmpty, issues := issues }

/-- `_commit_changes` (autonomous-agent.py lines 434-464): stage,
commit, then read back the revision truncated to 8 characters; any
failure in the three-call sequence is caught and reported as a
`commit_failed:` string instead of raising. -/
def commit_changes (g : GitOracle) (_message : String) : String :=
  match g.add with
  | .err m => "commit_failed: " ++ m
  | .ok _ =>
    match g.commit with
    | .err m => "commit_failed: " ++ m
    | .ok _ =>
      match g.revParse with
      | .err m => "commit_failed: " ++ m
      | .ok out => pySliceTo 8 (pyStrip out)

/-- `_generate_summary` (autonomous-agent.py lines 466-482). -/
def generate_summary (results : List StepResult) : String :=
  let filesCreated := results.filterMap
    (fun r => if r.action = "create_file" then r.file else none)
  let filesModified := results.filterMap
    (fun r => if r.action = "modify_file" then r.file else none)
  let commandsRun := results.filterMap
    (fun r => if r.action = "run_command" then r.command else none)
  let parts : List String :=
    (if filesCreated.isEmpty then [] else
      ["Created " ++ toString filesCreated.length ++ " files: "
        ++ String.intercalate ", " filesCreated]) ++
    (if filesModified.isEmpty then [] else
      ["Modified " ++ toString filesModified.length ++ " files: "
        ++ String.intercalate ", " filesModified]) ++
    (if commandsRun.isEmpty then [] else
      ["Ran " ++ toString commandsRun.length ++ " commands"])
  if parts.isEmpty then "No changes made" else String.intercalate " | " parts

/-! ## The task pipeline -/

/-- Observable phases of one `execute_task` run, used to state which
stages were attempted and with what step statuses. -/
inductive PipeEvent where
  | planned (nsteps : Nat)
  | stepRun (action status : String)
  | validationRun
  | commitRun
deriving DecidableEq

/-- `execute_task` of `AutonomousCodingAgent` (autonomous-agent.py
lines 47-103): build the plan (a backend/parse failure raises),
gather context, run all steps, validate, and commit only when
validation succeeded. Returns the pipeline trace together with either
the output dictionary and final workspace, or the propagated
exception. The `commit` field is populated only on validation success,
exactly as the conditional expression on line 97. -/
def execute_task (o : Oracles) (g : GitOracle) (ws : Workspace) (task : Task) :
    List PipeEvent × Except String (TaskOutcome × Workspace) :=
  match o.planResult with
  | .error e => ([], .error e)
  | .ok plan =>
    let ctx := gather_codebase_context o ws plan
    match run_steps o ctx ws plan.steps with
    | .error e => ([.planned plan.steps.length], .error e)
    | .ok (results, ws2) =>
      let validation := validate_changes o ws2
      ([.planned plan.steps.length]
         ++ results.map (fun r => .stepRun r.action r.status)
         ++ [.validationRun]
         ++ (if validation.success then [.commitRun] else []),
       .ok ({ success := true, taskType := task.type, plan := plan,
              stepsCompleted := results.length,
              filesModified := results.filterMap (fun r => r.file),
              validation := validation,
              commit := if validation.success then some (commit_changes g task.title) else none,
              executionSummary := generate_summary results },
            ws2))

/-! ## The agent loop (agent-starter.py)

`ConductorAgent.run` (lines 145-203) is modelled as a fold over a list
of environment inputs, one per loop iteration: either the poll found no
task, or it returned a task whose execution then succeeds or raises, or
a KeyboardInterrupt arrives while idle. The loop emits an event trace
(heartbeats, polls, claims, completion reports). -/

/-- Result of `execute_task` as seen by the loop: normal return or a
raised exception. -/
inductive ExecResult where
  | ok
  | raises (msg : String)
deriving DecidableEq

/-- Environment input for one loop iteration. -/
inductive IterInput where
  | noTask
  | task (id : String) (res : ExecResult)
  | interrupt
deriving DecidableEq

/-- Observable actions of the loop. -/
inductive LoopEvent where
  | heartbeat (status : String)
  | poll
  | claim (id : String)
  | completeTask (id : String)
  | failTask (id : String) (msg : String)
deriving DecidableEq

/-- Events of one non-interrupted iteration of `ConductorAgent.run`:
a periodic heartbeat("active") every 6th cycle (lines 155-157), the
poll (line 161), and on a claimed task the heartbeat("busy") (line
171), the completion or failure report, and the finally-guaranteed
heartbeat("active") reset (lines 187-189). -/
def iterEvents (counter : Nat) : IterInput → List LoopEvent
  | .interrupt => [.heartbeat "offline"]
  | .noTask => (if counter % 6 = 0 then [.heartbeat "active"] else []) ++ [.poll]
  | .task id res =>
    (if counter % 6 = 0 then [.heartbeat "active"] else [])
      ++ [.poll, .claim id, .heartbeat "busy"]
      ++ (match res with
          | .ok => [.completeTask id]
          | .raises m => [.failTask id m])
      ++ [.heartbeat "active"]

/-- `ConductorAgent.run` (agent-starter.py lines 145-203): iterate
until the environment inputs run out; a KeyboardInterrupt while idle
sends one heartbeat("offline") and exits the loop (lines 196-200),
ignoring any remaining inputs. -/
def runLoop : Nat → List IterInput → List LoopEvent
  | _, [] => []
  | _, .interrupt :: _ => [.heartbeat "offline"]
  | c, .noTask :: rest => iterEvents c .noTask ++ runLoop (c + 1) rest
  | c, .task id res :: rest => iterEvents c (.task id res) ++ runLoop (c + 1) rest

/-- The heartbeat statuses of an event trace, in emission order. -/
def hbTrace (evts : List LoopEvent) : List String :=
  evts.filterMap (fun e => match e with | .heartbeat s => some s | _ => none)

/-- Every "busy" heartbeat is immediately followed by an "active" one. -/
def busyFollowedOk : List String → Bool
  | [] => true
  | s :: rest =>
    (if s = "busy" then (if rest.head? = some "active" then true else false) else true)
      && busyFollowedOk rest

/-- Every "busy" heartbeat is immediately preceded by an "active" one
(`prev` is the last status emitted before the list). -/
def busyPrecededOk : String → List String → Bool
  | _, [] => true
  | prev, s :: rest =>
    (if s = "busy" then (if prev = "active" then true else false) else true)
      && busyPrecededOk s rest

/-! ## Concrete fixtures used by counterexamples and witnesses -/

/-- The fenced payload from spec §8.5. -/
def fencedSample : String := "```json\n\x7b\"a\":1\x7d\n```"

/-- The empty workspace. -/
def emptyWs : Workspace := fun _ => none

/-- An empty context. -/
def emptyCtx : Context := { files := fun _ => none, technologies := [] }

/-- A plan whose steps list is empty. -/
def emptyPlan : Plan := { overview := "", steps := [], estimatedComplexity := "low" }

/-- A plan with a single successful shell command. -/
def cmdPlan : Plan :=
  { overview := ""
    steps := [{ action := "run_command", target := "true", description := "run", dependencies := [] }]
    estimatedComplexity := "low" }

/-- A sample task. -/
def sampleTask : Task := { id := "t1", title := "title", description := "", type := "feature" }

/-- Oracles where the plan backend yields the empty plan, every
subprocess completes cleanly, and `git status --porcelain` reports a
clean tree. -/
def emptyPlanOracles : Oracles :=
  { planResult := .ok emptyPlan
    parsePkg := fun _ => none
    genCreate := fun _ _ _ => ""
    genModify := fun _ _ _ _ => ""
    runShell := fun _ => .completed 0 "" ""
    gitStatus := .completed 0 "" ""
    typeCheck := .completed 0 "" "" }

/-- Oracles as `emptyPlanOracles` but with the one-command plan. -/
def cmdPlanOracles : Oracles := { emptyPlanOracles with planResult := .ok cmdPlan }

/-- A git oracle where every call succeeds. -/
def okGit : GitOracle := { add := .ok "", commit := .ok "", revParse := .ok "abcdef1234567890\n" }

/-- A git oracle whose staging call fails. -/
def failGit : GitOracle := { add := .err "boom", commit := .ok "", revParse := .ok "" }

/-- Oracles whose shell command completes with a non-zero exit code. -/
def cmdFailOracles : Oracles :=
  { emptyPlanOracles with runShell := fun _ => .completed 2 "abc" "def" }

/-- Oracles whose shell command fails to launch (e.g. timeout expiry). -/
def launchFailOracles : Oracles :=
  { emptyPlanOracles with runShell := fun _ => .failedLaunch "timeout" }

/-- Oracles whose modify-generation output contains a fence marker but
no line starting (after strip) with one. -/
def wipeOracles : Oracles :=
  { emptyPlanOracles with genModify := fun _ _ _ _ => "x ```" }

/-- A workspace containing one readable file. -/
def wipeWs : Workspace := setFile emptyWs "f.txt" (.readable "old")

/-- The outcome produced by `execute_task` on the empty-plan fixture. -/
def emptyPlanOutcome : TaskOutcome :=
  { success := true, taskType := "feature", plan := emptyPlan, stepsCompleted := 0,
    filesModified := [], validation := { success := false, issues := ["No changes detected"] },
    commit := none, executionSummary := "No changes made" }

/-! ## Helper lemmas -/

/-- `hbTrace` distributes over concatenation of event traces. -/
theorem hbTrace_append (a b : List LoopEvent) : hbTrace (a ++ b) = hbTrace a ++ hbTrace b := by
  simp [hbTrace]

/-- A heartbeat event contributes its status to the heartbeat trace. -/
theorem hbTrace_heartbeat_cons (s : String) (t : List LoopEvent) :
    hbTrace (.heartbeat s :: t) = s :: hbTrace t := by
  simp [hbTrace]

/-- A poll event is not a heartbeat. -/
theorem hbTrace_poll_cons (t : List LoopEvent) : hbTrace (.poll :: t) = hbTrace t := by
  simp [hbTrace]

/-- A claim event is not a heartbeat. -/
theorem hbTrace_claim_cons (id : String) (t : List LoopEvent) :
    hbTrace (.claim id :: t) = hbTrace t := by
  simp [hbTrace]

/-- A completion report is not a heartbeat. -/
theorem hbTrace_complete_cons (id : String) (t : List LoopEvent) :
    hbTrace (.completeTask id :: t) = hbTrace t := by
  simp [hbTrace]

/-- A failure report is not a heartbeat. -/
theorem hbTrace_fail_cons (id m : String) (t : List LoopEvent) :
    hbTrace (.failTask id m :: t) = hbTrace t := by
  simp [hbTrace]

/-- The empty trace has no heartbeats. -/
theorem hbTrace_nil : hbTrace [] = [] := rfl

/-- When every line of the input fails the fence-marker test, the
modify-file cleanup starting outside a fence keeps no line. -/
theorem cleanModifyLines_all_dropped :
    ∀ ls : List (List Char),
      (∀ l ∈ ls, startsWithL fenceChars (trimChars l) = false) →
      cleanModifyLines false ls = [] := by
  intro ls
  induction ls with
  | nil => intro _; rfl
  | cons l rest ih =>
    intro h
    have hl := h l (by simp)
    simp only [cleanModifyLines, hl, Bool.false_eq_true, if_false, if_neg]
    exact ih fun x hx => h x (by simp [hx])

/-- Files that are absent or unreadable are never added by the context
file-gathering loop. -/
theorem gatherFiles_skips_not_readable (ws : Workspace) :
    ∀ (steps : List Step) (acc : String → Option String) (p : String),
      (∀ c, ws p ≠ some (FileData.readable c)) → acc p = none →
      gatherFiles ws steps acc p = none := by
  intro steps
  induction steps with
  | nil => intro acc p _ hacc; simpa [gatherFiles] using hacc
  | cons st rest ih =>
    intro acc p hp hacc
    simp only [gatherFiles]
    apply ih _ p hp
    by_cases ht : st.target = ""
    · simp [ht, hacc]
    · simp only [ht, if_neg, if_false]
      cases hw : ws st.target with
      | none => simpa [hw] using hacc
      | some fd =>
        cases fd with
        | unreadable => simpa [hw] using hacc
        | readable c =>
          have hne : p ≠ st.target := by
            intro he
            exact hp c (by rw [he, hw])
          simp [hw, hne, hacc]

/-- Executing a step list yields exactly one result per step. -/
theorem run_steps_length (o : Oracles) (ctx : Context) :
    ∀ (steps : List Step) (ws : Workspace) (rs : List StepResult) (ws2 : Workspace),
      run_steps o ctx ws steps = .ok (rs, ws2) → rs.length = steps.length := by
  intro steps
  induction steps with
  | nil =>
    intro ws rs ws2 h
    simp only [run_steps, Except.ok.injEq, Prod.mk.injEq] at h
    rw [← h.1]
    rfl
  | cons st rest ih =>
    intro ws rs ws2 h
    cases he : execute_step o ctx ws st with
    | error e => simp [run_steps, he] at h
    | ok pr =>
      obtain ⟨r, w2⟩ := pr
      cases hr : run_steps o ctx w2 rest with
      | error e => simp [run_steps, he, hr] at h
      | ok pr2 =>
        obtain ⟨rs2, w3⟩ := pr2
        simp only [run_steps, he, hr, Except.ok.injEq, Prod.mk.injEq] at h
        obtain ⟨hrs, hws⟩ := h
        subst hrs
        simp [ih w2 rs2 w3 hr]

/-! ## Claim theorems -/

/-- Claim C4 (confirmed): a modify-file step whose target path does not
exist returns the `file_not_found` status (not an error, not a raised
exception) and hands back the workspace unchanged: no file is created
or modified. -/
theorem modify_missing_file_spec (o : Oracles) (ctx : Context) (ws : Workspace)
    (target desc : String) (h : ws target = none) :
    modify_file o ctx ws target desc =
      .ok ({ action := "modify_file", status := "file_not_found" }, ws) := by
  simp [modify_file, h]

/-- Witness for C4 at a concrete empty workspace. -/
theorem modify_missing_file_spec_witness :
    modify_file emptyPlanOracles emptyCtx emptyWs "missing.py" "edit" =
      .ok ({ action := "modify_file", status := "file_not_found" }, emptyWs) :=
  modify_missing_file_spec emptyPlanOracles emptyCtx emptyWs "missing.py" "edit" rfl

/-- Claim C5 (confirmed): both fence-stripping heuristics leave any
input without a fence marker unchanged, and both map the fenced sample
from the spec to its unfenced payload. -/
theorem fence_strip_spec (s : String) (h : containsTriple s.data = false) :
    cleanCreate s = s ∧ cleanModify s = s ∧
    cleanCreate fencedSample = "\x7b\"a\":1\x7d" ∧
    cleanModify fencedSample = "\x7b\"a\":1\x7d" := by
  refine ⟨?_, ?_, by decide, by decide⟩
  · simp [cleanCreate, h]
  · simp [cleanModify, h]

/-- Witness for C5 at a concrete unfenced input. -/
theorem fence_strip_spec_witness :
    cleanCreate "print(1)" = "print(1)" ∧ cleanModify "print(1)" = "print(1)" ∧
    cleanCreate fencedSample = "\x7b\"a\":1\x7d" ∧
    cleanModify fencedSample = "\x7b\"a\":1\x7d" :=
  fence_strip_spec "print(1)" (by decide)

/-- Claim C6 (confirmed): a completed command reports its 500-character
stdout/stderr prefixes and status failed exactly on non-zero exit;
status error occurs only when the launch itself failed (including
timeout); all captured output is at most 500 characters. The model
function is total: no exception propagates. -/
theorem run_command_spec (o : Oracles) (cmd : String) :
    (∀ rc out errOut, o.runShell cmd = .completed rc out errOut →
        (run_command o cmd).stdout = some (pySliceTo 500 out) ∧
        (run_command o cmd).stderr = some (pySliceTo 500 errOut) ∧
        (rc ≠ 0 → (run_command o cmd).status = "failed") ∧
        (rc = 0 → (run_command o cmd).status = "success")) ∧
    (∀ m, o.runShell cmd = .failedLaunch m → (run_command o cmd).status = "error") ∧
    ((run_command o cmd).status = "error" →
        ∀ rc out errOut, o.runShell cmd ≠ .completed rc out errOut) ∧
    (∀ t, (run_command o cmd).stdout = some t → pyLen t ≤ 500) ∧
    (∀ t, (run_command o cmd).stderr = some t → pyLen t ≤ 500) := by
  cases hr : o.runShell cmd with
  | completed rc out errOut =>
    refine ⟨?_, ?_, ?_, ?_, ?_⟩
    · intro rc2 out2 e2 h2
      injection h2 with ha hb hc
      subst ha; subst hb; subst hc
      refine ⟨by simp [run_command, hr], by simp [run_command, hr], ?_, ?_⟩
      · intro hne; simp [run_command, hr, hne]
      · intro h0; simp [run_command, hr, h0]
    · intro m hm; exact absurd hm (by simp)
    · intro hst
      exfalso
      simp only [run_command, hr] at hst
      by_cases h0 : rc = 0 <;> simp [h0] at hst
    · intro t ht
      simp only [run_command, hr, Option.some.injEq] at ht
      rw [← ht]
      simp only [pyLen, pySliceTo, List.length_take]
      exact Nat.min_le_left _ _
    · intro t ht
      simp only [run_command, hr, Option.some.injEq] at ht
      rw [← ht]
      simp only [pyLen, pySliceTo, List.length_take]
      exact Nat.min_le_left _ _
  | failedLaunch m =>
    refine ⟨?_, ?_, ?_, ?_, ?_⟩
    · intro rc2 out2 e2 h2; exact absurd h2 (by simp)
    · intro m2 _; simp [run_command, hr]
    · intro _ rc2 out2 e2 hc; exact absurd hc (by simp)
    · intro t ht; simp [run_command, hr] at ht
    · intro t ht; simp [run_command, hr] at ht

/-- Witness for C6: a non-zero exit yields failed, a launch failure
yields error, and the captured output obeys the bound. -/
theorem run_command_spec_witness :
    (run_command cmdFailOracles "make").status = "failed" ∧
    (run_command launchFailOracles "make").status = "error" ∧
    pyLen (pySliceTo 500 "abc") ≤ 500 := by
  refine ⟨((run_command_spec cmdFailOracles "make").1 2 "abc" "def" rfl).2.2.1 (by decide),
          (run_command_spec launchFailOracles "make").2.1 "timeout" rfl,
          (run_command_spec cmdFailOracles "make").2.2.2.1 (pySliceTo 500 "abc") rfl⟩

/-- Claim C7 (confirmed): context gathering is total and best-effort —
missing or unreadable files never appear in the files mapping, and a
missing, unreadable or unparsable `package.json` manifest yields an
empty technology list. -/
theorem gather_context_spec (o : Oracles) (ws : Workspace) (plan : Plan) :
    (∀ p, ws p = none → (gather_codebase_context o ws plan).files p = none) ∧
    (∀ p, ws p = some FileData.unreadable → (gather_codebase_context o ws plan).files p = none) ∧
    (ws "package.json" = none → (gather_codebase_context o ws plan).technologies = []) ∧
    (ws "package.json" = some FileData.unreadable →
        (gather_codebase_context o ws plan).technologies = []) ∧
    (∀ c, ws "package.json" = some (FileData.readable c) → o.parsePkg c = none →
        (gather_codebase_context o ws plan).technologies = []) := by
  refine ⟨?_, ?_, ?_, ?_, ?_⟩
  · intro p hp
    exact gatherFiles_skips_not_readable ws plan.steps _ p
      (fun c hc => by rw [hp] at hc; simp at hc) rfl
  · intro p hp
    exact gatherFiles_skips_not_readable ws plan.steps _ p
      (fun c hc => by rw [hp] at hc; simp at hc) rfl
  · intro h; simp [gather_codebase_context, h]
  · intro h; simp [gather_codebase_context, h]
  · intro c hc hp; simp [gather_codebase_context, hc, hp]

/-- Witness for C7 at the empty workspace. -/
theorem gather_context_spec_witness :
    (gather_codebase_context emptyPlanOracles emptyWs cmdPlan).files "missing.py" = none ∧
    (gather_codebase_context emptyPlanOracles emptyWs cmdPlan).technologies = [] :=
  ⟨(gather_context_spec emptyPlanOracles emptyWs cmdPlan).1 "missing.py" rfl,
   (gather_context_spec emptyPlanOracles emptyWs cmdPlan).2.2.1 rfl⟩

/-- Claim C8 (confirmed): any failure among stage, commit and revision
read-back makes `commit_changes` return a "commit_failed: reason"
string instead of raising, and the step results of the task outcome
(trace, counts, files, validation, summary) are unchanged by swapping
the commit git oracle. -/
theorem commit_failure_spec (g g2 : GitOracle) (m : String) (o : Oracles)
    (ws : Workspace) (task : Task) :
    (∀ msg, g.add = .err m → commit_changes g msg = "commit_failed: " ++ m) ∧
    (∀ msg s, g.add = .ok s → g.commit = .err m →
        commit_changes g msg = "commit_failed: " ++ m) ∧
    (∀ msg s t, g.add = .ok s → g.commit = .ok t → g.revParse = .err m →
        commit_changes g msg = "commit_failed: " ++ m) ∧
    (execute_task o g ws task).1 = (execute_task o g2 ws task).1 ∧
    ((execute_task o g ws task).2.toOption.map
        (fun p => (p.1.stepsCompleted, p.1.filesModified, p.1.validation, p.1.executionSummary)))
      = ((execute_task o g2 ws task).2.toOption.map
        (fun p => (p.1.stepsCompleted, p.1.filesModified, p.1.validation,
                   p.1.executionSummary))) := by
  refine ⟨?_, ?_, ?_, ?_, ?_⟩
  · intro msg h; simp [commit_changes, h]
  · intro msg s h1 h2; simp [commit_changes, h1, h2]
  · intro msg s t h1 h2 h3; simp [commit_changes, h1, h2, h3]
  · cases hp : o.planResult with
    | error e => simp [execute_task, hp]
    | ok plan =>
      cases hr : run_steps o (gather_codebase_context o ws plan) ws plan.steps with
      | error e => simp [execute_task, hp, hr]
      | ok pr => simp [execute_task, hp, hr]
  · cases hp : o.planResult with
    | error e => simp [execute_task, hp]
    | ok plan =>
      cases hr : run_steps o (gather_codebase_context o ws plan) ws plan.steps with
      | error e => simp [execute_task, hp, hr]
      | ok pr => simp [execute_task, hp, hr, Except.toOption]

/-- Witness for C8: a failing stage call yields the commit_failed
string and leaves the pipeline trace untouched. -/
theorem commit_failure_spec_witness :
    commit_changes failGit "msg" = "commit_failed: boom" ∧
    (execute_task cmdPlanOracles failGit emptyWs sampleTask).1
      = (execute_task cmdPlanOracles okGit emptyWs sampleTask).1 :=
  ⟨(commit_failure_spec failGit okGit "boom" cmdPlanOracles emptyWs sampleTask).1 "msg" rfl,
   (commit_failure_spec failGit okGit "boom" cmdPlanOracles emptyWs sampleTask).2.2.2.1⟩

/-- Claim C10 (confirmed): when the generated replacement for an
existing file contains a fence marker but no line whose stripped form
starts with one, the modify-file cleanup keeps no lines and the target
is overwritten with the empty string, losing its original content. -/
theorem modify_wipe_spec (o : Oracles) (ctx : Context) (ws : Workspace)
    (target desc orig : String)
    (hex : ws target = some (.readable orig))
    (hfence : containsTriple (o.genModify target desc orig ctx).data = true)
    (hnol : ∀ l ∈ splitLinesChars (o.genModify target desc orig ctx).data,
        startsWithL fenceChars (trimChars l) = false) :
    cleanModify (o.genModify target desc orig ctx) = "" ∧
    modify_file o ctx ws target desc =
      .ok ({ action := "modify_file", file := some target,
             originalSize := some (pyLen orig), newSize := some 0,
             status := "success" },
           setFile ws target (.readable "")) := by
  have h0 : cleanModifyLines false (splitLinesChars (o.genModify target desc orig ctx).data)
      = [] := cleanModifyLines_all_dropped _ hnol
  have hclean : cleanModify (o.genModify target desc orig ctx) = "" := by
    simp only [cleanModify, hfence, if_pos, h0]
    rfl
  refine ⟨hclean, ?_⟩
  simp [modify_file, hex, hclean, pyLen]

/-- Claim C1 counterexample: with a plan whose steps list is empty and
a clean git tree, `execute_task` does NOT reject the plan and does NOT
raise (so the loop would report completion, not Fail): it returns
normally with stepsCompleted = 0 and the validation stage IS attempted,
contradicting "validation and commit are never attempted" and "the
agent reports the task via the Fail operation". -/
theorem empty_plan_counterexample :
    (execute_task emptyPlanOracles okGit emptyWs sampleTask).1
        = [.planned 0, .validationRun] ∧
    PipeEvent.validationRun ∈ (execute_task emptyPlanOracles okGit emptyWs sampleTask).1 ∧
    ((execute_task emptyPlanOracles okGit emptyWs sampleTask).2.toOption.map
        (fun p => p.1.stepsCompleted)) = some 0 ∧
    (execute_task emptyPlanOracles okGit emptyWs sampleTask).2.toOption.isSome = true := by
  refine ⟨by decide, by decide, by decide, by decide⟩

/-- Claim C1 (corrected): an empty-steps plan is not rejected — the
source has no non-empty-steps check. `execute_task` runs zero steps,
always attempts validation, attempts commit exactly when validation
succeeds, and returns normally (stepsCompleted = 0), so the loop
reports completion rather than Fail. -/
theorem empty_plan_behavior (o : Oracles) (g : GitOracle) (ws : Workspace) (task : Task)
    (plan : Plan) (hp : o.planResult = .ok plan) (hs : plan.steps = []) :
    (execute_task o g ws task).1
        = [.planned 0, .validationRun]
            ++ (if (validate_changes o ws).success then [.commitRun] else []) ∧
    ((execute_task o g ws task).2.toOption.map (fun p => p.1.stepsCompleted)) = some 0 ∧
    (execute_task o g ws task).2.toOption.isSome = true ∧
    (PipeEvent.commitRun ∈ (execute_task o g ws task).1
        ↔ (validate_changes o ws).success = true) := by
  have h1 : run_steps o (gather_codebase_context o ws plan) ws [] = .ok ([], ws) := rfl
  refine ⟨?_, ?_, ?_, ?_⟩
  · simp [execute_task, hp, hs, h1]
  · simp [execute_task, hp, hs, h1, Except.toOption]
  · simp [execute_task, hp, hs, h1, Except.toOption]
  · by_cases hv : (validate_changes o ws).success <;>
      simp [execute_task, hp, hs, h1, hv]

/-- Witness for the amended C1 at the empty-plan fixture. -/
theorem empty_plan_behavior_witness :
    (execute_task emptyPlanOracles okGit emptyWs sampleTask).1
        = [.planned 0, .validationRun]
            ++ (if (validate_changes emptyPlanOracles emptyWs).success then [.commitRun] else []) ∧
    ((execute_task emptyPlanOracles okGit emptyWs sampleTask).2.toOption.map
        (fun p => p.1.stepsCompleted)) = some 0 ∧
    (execute_task emptyPlanOracles okGit emptyWs sampleTask).2.toOption.isSome = true ∧
    (PipeEvent.commitRun ∈ (execute_task emptyPlanOracles okGit emptyWs sampleTask).1
        ↔ (validate_changes emptyPlanOracles emptyWs).success = true) :=
  empty_plan_behavior emptyPlanOracles okGit emptyWs sampleTask emptyPlan rfl rfl

/-- Claim C2 counterexample: a plan with one run-command step that
exits 0 over a clean git tree — every step executes with status
success and stepsCompleted = 1 = N, yet the reported commit reference
is null because validation fails with "No changes detected". -/
theorem all_steps_success_counterexample :
    (execute_task cmdPlanOracles okGit emptyWs sampleTask).1
        = [.planned 1, .stepRun "run_command" "success", .validationRun] ∧
    ((execute_task cmdPlanOracles okGit emptyWs sampleTask).2.toOption.map
        (fun p => (p.1.stepsCompleted, p.1.commit))) = some (1, none) := by
  refine ⟨by decide, by decide⟩

/-- Claim C2 (corrected): whenever `execute_task` returns normally, the
reported stepsCompleted equals the number N of plan steps (regardless
of per-step status), and the commit reference is non-null exactly when
validation succeeded — all steps succeeding does not guarantee a
commit. -/
theorem steps_completed_commit_spec (o : Oracles) (g : GitOracle) (ws : Workspace)
    (task : Task) (plan : Plan) (hp : o.planResult = .ok plan)
    (out : TaskOutcome) (ws2 : Workspace)
    (hok : (execute_task o g ws task).2 = .ok (out, ws2)) :
    out.stepsCompleted = plan.steps.length ∧ out.commit.isSome = out.validation.success := by
  cases hr : run_steps o (gather_codebase_context o ws plan) ws plan.steps with
  | error e => simp [execute_task, hp, hr] at hok
  | ok pr =>
    obtain ⟨rs, w3⟩ := pr
    simp only [execute_task, hp, hr, Except.ok.injEq, Prod.mk.injEq] at hok
    obtain ⟨hout, hw⟩ := hok
    subst hout
    constructor
    · exact run_steps_length o (gather_codebase_context o ws plan) plan.steps ws rs w3 hr
    · by_cases hv : (validate_changes o w3).success <;> simp [hv]

/-- Witness for the amended C2 at the empty-plan fixture. -/
theorem steps_completed_commit_spec_witness :
    emptyPlanOutcome.stepsCompleted = emptyPlan.steps.length ∧
    emptyPlanOutcome.commit.isSome = emptyPlanOutcome.validation.success :=
  steps_completed_commit_spec emptyPlanOracles okGit emptyWs sampleTask emptyPlan rfl
    emptyPlanOutcome emptyWs rfl

/-- Witness for C10 with replacement text "x ```". -/
theorem modify_wipe_spec_witness :
    cleanModify (wipeOracles.genModify "f.txt" "desc" "old" emptyCtx) = "" ∧
    modify_file wipeOracles emptyCtx wipeWs "f.txt" "desc" =
      .ok ({ action := "modify_file", file := some "f.txt",
             originalSize := some (pyLen "old"), newSize := some 0,
             status := "success" },
           setFile wipeWs "f.txt" (.readable "")) :=
  modify_wipe_spec wipeOracles emptyCtx wipeWs "f.txt" "desc" "old" (by decide)
    (by decide) (by decide)

/-- Every "busy" heartbeat in a run trace is immediately followed by an
"active" one: the finally-guaranteed reset fires for every outcome. -/
theorem busyFollowed_runLoop : ∀ (ins : List IterInput) (c : Nat),
    busyFollowedOk (hbTrace (runLoop c ins)) = true := by
  intro ins
  induction ins with
  | nil => intro c; rfl
  | cons inp rest ih =>
    intro c
    cases inp with
    | interrupt => simp [runLoop, hbTrace, busyFollowedOk]
    | noTask =>
      by_cases h : c % 6 = 0 <;>
        · simp [runLoop, iterEvents, hbTrace, h, busyFollowedOk]
          exact ih (c + 1)
    | task id res =>
      by_cases h : c % 6 = 0 <;> cases res <;>
        · simp [runLoop, iterEvents, hbTrace, h, busyFollowedOk]
          exact ih (c + 1)

/-- Every "busy" heartbeat in a run trace is immediately preceded by an
"active" one, provided the status last emitted before the trace was
"active" or the cycle counter triggers the periodic active heartbeat. -/
theorem busyPreceded_runLoop : ∀ (ins : List IterInput) (c : Nat) (prev : String),
    prev = "active" ∨ c % 6 = 0 →
    busyPrecededOk prev (hbTrace (runLoop c ins)) = true := by
  intro ins
  induction ins with
  | nil => intro c prev _; rfl
  | cons inp rest ih =>
    intro c prev hpre
    cases inp with
    | interrupt =>
      simp [runLoop, hbTrace, busyPrecededOk]
    | noTask =>
      by_cases h : c % 6 = 0
      · simp [runLoop, iterEvents, hbTrace, h, busyPrecededOk]
        exact ih (c + 1) "active" (Or.inl rfl)
      · have hprev : prev = "active" := hpre.resolve_right h
        subst hprev
        simp [runLoop, iterEvents, hbTrace, h]
        exact ih (c + 1) "active" (Or.inl rfl)
    | task id res =>
      by_cases h : c % 6 = 0
      · cases res <;>
          · simp [runLoop, iterEvents, hbTrace, h, busyPrecededOk]
            exact ih (c + 1) "active" (Or.inl rfl)
      · have hprev : prev = "active" := hpre.resolve_right h
        subst hprev
        cases res <;>
          · simp [runLoop, iterEvents, hbTrace, h, busyPrecededOk]
            exact ih (c + 1) "active" (Or.inl rfl)

/-- Claim C3 (confirmed): in the heartbeat stream of any run, every
"busy" is immediately preceded and immediately followed by an "active"
(so the statuses emitted around each claimed task are exactly
active, busy, active for every outcome — normal return or exception),
and the events of a task-claiming iteration always end with the
heartbeat("active") reset before the loop continues. -/
theorem heartbeat_sequence_spec (ins : List IterInput) :
    busyFollowedOk (hbTrace (runLoop 0 ins)) = true ∧
    busyPrecededOk "" (hbTrace (runLoop 0 ins)) = true ∧
    ∀ (c : Nat) (id : String) (res : ExecResult),
      (iterEvents c (.task id res)).getLast? = some (.heartbeat "active") := by
  refine ⟨busyFollowed_runLoop ins 0, busyPreceded_runLoop ins 0 "" (Or.inr rfl), ?_⟩
  intro c id res
  by_cases h : c % 6 = 0 <;> cases res <;> simp [iterEvents, h]

/-- Up to the first idle interrupt, the loop behaves as if the inputs
after the interrupt did not exist: it emits its normal events and then
exactly the final heartbeat("offline"). -/
theorem runLoop_interrupt_split : ∀ (pre : List IterInput) (c : Nat) (rest : List IterInput),
    (∀ x ∈ pre, x ≠ IterInput.interrupt) →
    runLoop c (pre ++ IterInput.interrupt :: rest)
      = runLoop c pre ++ [LoopEvent.heartbeat "offline"] := by
  intro pre
  induction pre with
  | nil => intro c rest _; simp [runLoop]
  | cons inp pre2 ih =>
    intro c rest h
    have hne : inp ≠ IterInput.interrupt := h inp (by simp)
    have h2 : ∀ x ∈ pre2, x ≠ IterInput.interrupt := fun x hx => h x (by simp [hx])
    cases inp with
    | interrupt => exact absurd rfl hne
    | noTask => simp [runLoop, ih (c + 1) rest h2]
    | task id res => simp [runLoop, ih (c + 1) rest h2]

/-- Before any interrupt, the loop only emits "active" and "busy"
heartbeats. -/
theorem hbTrace_no_offline : ∀ (pre : List IterInput) (c : Nat),
    (∀ x ∈ pre, x ≠ IterInput.interrupt) →
    ∀ s ∈ hbTrace (runLoop c pre), s = "active" ∨ s = "busy" := by
  intro pre
  induction pre with
  | nil => intro c _ s hs; simp [runLoop, hbTrace] at hs
  | cons inp pre2 ih =>
    intro c h s hs
    have h2 : ∀ x ∈ pre2, x ≠ IterInput.interrupt := fun x hx => h x (by simp [hx])
    cases inp with
    | interrupt => exact absurd rfl (h _ (by simp))
    | noTask =>
      by_cases hc : c % 6 = 0 <;>
        · simp only [runLoop, iterEvents, hc, if_pos, if_neg, if_true, if_false,
            List.nil_append, List.cons_append, List.append_nil, hbTrace_append,
            hbTrace_heartbeat_cons, hbTrace_poll_cons, hbTrace_nil,
            List.mem_cons, List.mem_append, List.not_mem_nil, or_false,
            false_or] at hs
          have hrec := ih (c + 1) h2 s
          tauto
    | task id res =>
      by_cases hc : c % 6 = 0 <;> cases res <;>
        · simp only [runLoop, iterEvents, hc, if_pos, if_neg, if_true, if_false,
            List.nil_append, List.cons_append, List.append_nil, hbTrace_append,
            hbTrace_heartbeat_cons, hbTrace_poll_cons, hbTrace_claim_cons,
            hbTrace_complete_cons, hbTrace_fail_cons, hbTrace_nil,
            List.mem_cons, List.mem_append, List.not_mem_nil, or_false,
            false_or] at hs
          have hrec := ih (c + 1) h2 s
          tauto

/-- Claim C9 (confirmed): an interrupt arriving while the loop is idle
makes the loop emit its pre-interrupt events followed by exactly one
heartbeat("offline") as the very last event, and everything after the
interrupt is ignored — no task is polled or claimed afterwards. -/
theorem interrupt_shutdown_spec (pre rest : List IterInput)
    (h : ∀ x ∈ pre, x ≠ IterInput.interrupt) :
    runLoop 0 (pre ++ IterInput.interrupt :: rest)
        = runLoop 0 pre ++ [LoopEvent.heartbeat "offline"] ∧
    (hbTrace (runLoop 0 (pre ++ IterInput.interrupt :: rest))).count "offline" = 1 ∧
    (runLoop 0 (pre ++ IterInput.interrupt :: rest)).getLast?
        = some (LoopEvent.heartbeat "offline") := by
  have hsplit := runLoop_interrupt_split pre 0 rest h
  refine ⟨hsplit, ?_, ?_⟩
  · rw [hsplit, hbTrace_append, List.count_append]
    have h0 : (hbTrace (runLoop 0 pre)).count "offline" = 0 := by
      rw [List.count_eq_zero]
      intro hmem
      rcases hbTrace_no_offline pre 0 h _ hmem with h1 | h1 <;> simp at h1
    rw [h0]
    decide
  · rw [hsplit]
    simp

/-- Witness for C9: one idle poll, then an interrupt, with a further
task input that is never reached. -/
theorem interrupt_shutdown_spec_witness :
    runLoop 0 ([IterInput.noTask] ++ IterInput.interrupt :: [IterInput.task "t" .ok])
        = runLoop 0 [IterInput.noTask] ++ [LoopEvent.heartbeat "offline"] ∧
    (hbTrace (runLoop 0
        ([IterInput.noTask] ++ IterInput.interrupt :: [IterInput.task "t" .ok]))).count
        "offline" = 1 ∧
    (runLoop 0 ([IterInput.noTask] ++ IterInput.interrupt :: [IterInput.task "t" .ok])).getLast?
        = some (LoopEvent.heartbeat "offline") :=
  interrupt_shutdown_spec [IterInput.noTask] [IterInput.task "t" .ok] (by decide)

end Conductor
